import Mathlib

/-!
Verification of the C64 ROM collector's game-identity, classification,
catalog and selection logic (`src/utils/name_cleaner.py`,
`src/utils/format_handler.py`, `src/core/processor.py`, `src/db/database.py`,
`src/db/game_repository.py`, `src/files/path_sanitizer.py`, `src/files/operations.py`).

The Python functions are shallowly embedded as executable Lean functions over
`List Char` / `String`.  Each concrete regular expression of the source is
hand-compiled to a dedicated matcher; every such matcher is deterministic
because in each pattern the adjacent character classes are disjoint, so the
greedy scan of Python's backtracking engine has a unique outcome (the one
place where backtracking is observable, the bare version marker
`v[\d.]+\b`, is modelled with an explicit search over the cut point).
Strings are treated as sequences of characters; word characters are the
ASCII set `[A-Za-z0-9_]` (all inputs of the program are filenames).
Newline-specific behaviour of `.`/`$` is not modelled: `.*$` is taken to
reach the end of the string, which agrees with Python on every string
without a newline character (filenames never contain one).
-/

/-- The whitespace class `\s` of Python's `re` module (ASCII part). -/
def pyIsSpace (c : Char) : Bool :=
  c = ' ' || c = '\t' || c = '\n' || c = '\r' || c = '\x0b' || c = '\x0c'

/-- The word-character class `\w` used by `\b` (ASCII part). -/
def isWordChar (c : Char) : Bool :=
  c.isAlphanum || c = '_'

/-- Numeric value of a decimal digit string, as Python's `int`. -/
def natOfDigits (ds : List Char) : Nat :=
  ds.foldl (fun a c => 10 * a + (c.toNat - 48)) 0

/-- Case-sensitive: `tok` is a prefix of `cs`. -/
def startsWithChars : List Char → List Char → Bool
  | [], _ => true
  | _ :: _, [] => false
  | t :: ts, c :: cs => c = t && startsWithChars ts cs

/-- Case-insensitive: `tok` is a prefix of `cs` (pattern compiled with `re.IGNORECASE`). -/
def startsWithCI : List Char → List Char → Bool
  | [], _ => true
  | _ :: _, [] => false
  | t :: ts, c :: cs => c.toLower = t.toLower && startsWithCI ts cs

/-- Python's `needle in haystack`: contiguous substring, case-sensitive. -/
def hasSub (needle : List Char) : List Char → Bool
  | [] => startsWithChars needle []
  | c :: cs => startsWithChars needle (c :: cs) || hasSub needle cs

/-- Case-insensitive substring containment. -/
def hasSubCI (needle : List Char) : List Char → Bool
  | [] => startsWithCI needle []
  | c :: cs => startsWithCI needle (c :: cs) || hasSubCI needle cs

/-- Existence form of `re.search`: the pattern matcher `m` succeeds at some position,
scanning positions left to right. -/
def searchBool (m : List Char → Bool) : List Char → Bool
  | [] => m []
  | c :: cs => m (c :: cs) || searchBool m cs

/-- Capturing form of `re.search`: result of `m` at the leftmost matching
position. -/
def searchOpt {α : Type} (m : List Char → Option α) : List Char → Option α
  | [] => m []
  | c :: cs =>
    match m (c :: cs) with
    | some v => some v
    | none => searchOpt m cs

/-- Try each keyword (in alternation order) as a case-insensitive prefix and
return the remaining suffix. -/
def stripAnyKwCI : List (List Char) → List Char → Option (List Char)
  | [], _ => none
  | k :: ks, cs => if startsWithCI k cs then some (cs.drop k.length) else stripAnyKwCI ks cs

/-!  ### `src/utils/format_handler.py`  -/

/-- Match `(Side|Part|Disk)\s*([0-9]+)` (IGNORECASE) at the head of the
suffix, returning the number captured by the second group (greedy, maximal
digit run). -/
def matchSPDNumAt (cs : List Char) : Option Nat :=
  match stripAnyKwCI (["side", "part", "disk"].map String.toList) cs with
  | none => none
  | some r1 =>
    let r2 := r1.dropWhile pyIsSpace
    let ds := r2.takeWhile Char.isDigit
    if ds.isEmpty then none else some (natOfDigits ds)

/-- Match `Side\s*([A-B])` (IGNORECASE) at the head of the suffix, returning
`ord(group(1).upper()) - ord('A') + 1`. -/
def matchSideABAt (cs : List Char) : Option Nat :=
  if startsWithCI ("side".toList) cs then
    match (cs.drop 4).dropWhile pyIsSpace with
    | c :: _ =>
      if c.toLower = 'a' || c.toLower = 'b' then
        some (c.toUpper.toNat - 'A'.toNat + 1)
      else none
    | [] => none
  else none

/-- Match `Part\s*[0-9]+\s*-` (IGNORECASE) at the head of the suffix. -/
def matchPartDashAt (cs : List Char) : Bool :=
  if startsWithCI ("part".toList) cs then
    let r1 := (cs.drop 4).dropWhile pyIsSpace
    let ds := r1.takeWhile Char.isDigit
    if ds.isEmpty then false
    else
      match (r1.drop ds.length).dropWhile pyIsSpace with
      | c :: _ => c = '-'
      | [] => false
  else false

/-- The class `[\s\-]`. -/
def isSpaceOrDash (c : Char) : Bool :=
  pyIsSpace c || c = '-'

/-- Consume the connector `(?:and|&|\+)` (IGNORECASE). -/
def stripConnector (cs : List Char) : Option (List Char) :=
  if startsWithCI ("and".toList) cs then some (cs.drop 3)
  else
    match cs with
    | c :: rest => if c = '&' || c = '+' then some rest else none
    | [] => none

/-- Match `Levels?\s*[0-9][\s\-]*(?:and|&|\+)[\s\-]*[0-9]` (IGNORECASE) at the
head of the suffix (the multi-part pattern of `is_multi_part`). -/
def matchLevelsConnAt (cs : List Char) : Bool :=
  if startsWithCI ("level".toList) cs then
    let r0 := cs.drop 5
    let r1 := match r0 with
      | c :: rest => if c.toLower = 's' then rest else r0
      | [] => r0
    match r1.dropWhile pyIsSpace with
    | d :: r2 =>
      if d.isDigit then
        match stripConnector (r2.dropWhile isSpaceOrDash) with
        | some r3 =>
          match r3.dropWhile isSpaceOrDash with
          | e :: _ => e.isDigit
          | [] => false
        | none => false
      else false
    | [] => false
  else false

/-- The mandatory part `Levels?\s*([0-9]+)` of the part-number extraction
pattern of `get_multi_part_info`, returning group 1 and the suffix after
it. -/
def matchLevelsCoreAt (cs : List Char) : Option (Nat × List Char) :=
  if startsWithCI ("level".toList) cs then
    let r0 := cs.drop 5
    let r1 := match r0 with
      | c :: rest => if c.toLower = 's' then rest else r0
      | [] => r0
    let r2 := r1.dropWhile pyIsSpace
    let ds := r2.takeWhile Char.isDigit
    if ds.isEmpty then none else some (natOfDigits ds, r2.drop ds.length)
  else none

/-- Match `Levels?\s*([0-9]+)(?:\s*(?:and|&|\+|-)\s*([0-9]+))?` (IGNORECASE)
at the head of the suffix, returning group 1.  The optional second group
never affects whether the pattern matches, where it first matches, or the
value of group 1, so it is not computed. -/
def matchLevelsNumAt (cs : List Char) : Option Nat :=
  (matchLevelsCoreAt cs).map Prod.fst

/-- Match `Disk\s*[0-9]+/`, `Side\s*[A-B]/` or `Part\s*[0-9]+/` (IGNORECASE):
keyword, whitespace, body, then a path separator immediately after. -/
def matchKwNumSlashAt (kw : List Char) (cs : List Char) : Bool :=
  if startsWithCI kw cs then
    let r1 := (cs.drop kw.length).dropWhile pyIsSpace
    let ds := r1.takeWhile Char.isDigit
    if ds.isEmpty then false
    else
      match r1.drop ds.length with
      | c :: _ => c = '/'
      | [] => false
  else false

/-- Match `Side\s*[A-B]/` (IGNORECASE). -/
def matchSideABSlashAt (cs : List Char) : Bool :=
  if startsWithCI ("side".toList) cs then
    match (cs.drop 4).dropWhile pyIsSpace with
    | c :: rest =>
      if c.toLower = 'a' || c.toLower = 'b' then
        match rest with
        | d :: _ => d = '/'
        | [] => false
      else false
    | [] => false
  else false

/-- The deny-list of `is_multi_part` / `get_multi_part_info` (identical in
both functions in the source); matched case-sensitively with Python's `in`. -/
def denyPhrases : List (List Char) :=
  ["Tape Port Dongle", "Savedisk", "Special Edition", "(v2)", "Re-release"].map String.toList

/-- Test `any(p in full_path for p in [...])` over the deny-list. -/
def denyHit (full : List Char) : Bool :=
  denyPhrases.any (fun p => hasSub p full)

/-- Helper of `format_handler.get_format_priority`: lowercase the text after the last
dot of `filename.lower().split('.')[-1]` and look it up in the priority table. -/
def lastDotSegment (cs : List Char) : List Char :=
  cs.foldl (fun acc c => if c = '.' then [] else acc ++ [c]) []

/-- Embeds `format_handler.get_format_priority`. -/
def get_format_priority (filename : String) : Nat :=
  let ext := lastDotSegment (filename.toList.map Char.toLower)
  if ext = "crt".toList then 4
  else if ext = "d64".toList then 3
  else if ext = "g64".toList then 3
  else if ext = "nib".toList then 3
  else if ext = "prg".toList then 2
  else if ext = "tap".toList then 1
  else if ext = "t64".toList then 1
  else 0

/-- Embeds `format_handler.is_multi_part`: deny-list first, then the seven
multi-part patterns, each searched over `path + name`. -/
def is_multi_part (path name : String) : Bool :=
  let full := (path ++ name).toList
  if denyHit full then false
  else
    searchBool (fun s => (matchSPDNumAt s).isSome) full
    || searchBool (fun s => (matchSideABAt s).isSome) full
    || searchBool matchPartDashAt full
    || searchBool matchLevelsConnAt full
    || searchBool (matchKwNumSlashAt ("disk".toList)) full
    || searchBool matchSideABSlashAt full
    || searchBool (matchKwNumSlashAt ("part".toList)) full

/-- Embeds `format_handler.get_multi_part_info`: deny-list, then the three
extraction patterns in order. -/
def get_multi_part_info (path name : String) : Nat :=
  let full := (path ++ name).toList
  if denyHit full then 0
  else
    match searchOpt matchSPDNumAt full with
    | some n => n
    | none =>
      match searchOpt matchSideABAt full with
      | some k => k
      | none =>
        match searchOpt matchLevelsNumAt full with
        | some n => (n + 1) / 2
        | none => 0


/-!  ### `src/utils/name_cleaner.py`  -/

/-- Strip whitespace from both ends (Python `str.strip()`). -/
def pyStrip (cs : List Char) : List Char :=
  ((cs.dropWhile pyIsSpace).reverse.dropWhile pyIsSpace).reverse

/-- Content of a parenthesized group up to the first `)` of the suffix
(the regex `[^)]*` cannot cross a `)`); `none` when no `)` follows. -/
def upToClose : List Char → Option (List Char)
  | [] => none
  | c :: cs => if c = ')' then some [] else (upToClose cs).map (fun l => c :: l)

/-- The region tokens of `extract_region`, lowercased for IGNORECASE search. -/
def regionSearchTokens : List (List Char) :=
  ["usa", "europe", "world", "japan", "eur", "jp", "en", "pal", "ntsc"].map String.toList

/-- Leftmost match of `\(([^)]*(?:USA|Europe|World|Japan|Eur|Jp|En|PAL|NTSC)[^)]*)\)`
(IGNORECASE): the first `(` whose content — up to the first following `)` —
contains one of the tokens; the captured group is that content. -/
def findRegionGroup : List Char → Option (List Char)
  | [] => none
  | c :: cs =>
    if c = '(' then
      match upToClose cs with
      | some content =>
        if regionSearchTokens.any (fun t => hasSubCI t content) then some content
        else findRegionGroup cs
      | none => none
    else findRegionGroup cs

/-- Word-boundary match of an all-word-characters token at the head of the
suffix: the previous character (if any) is not a word character, the token
matches (case-insensitively when `ci`), and the character after the token
(if any) is not a word character.  Exactly `\bTOK\b` for a token whose
characters are all word characters. -/
def wbMatchAt (ci : Bool) (tok : List Char) (prev : Option Char) (cs : List Char) : Bool :=
  (match prev with
   | none => true
   | some p => !isWordChar p)
  && (if ci then startsWithCI tok cs else startsWithChars tok cs)
  && (match cs.drop tok.length with
      | [] => true
      | c :: _ => !isWordChar c)

/-- Fuel-driven scan of `re.sub(r'\bTOK\b', repl, s)`: at each position either
replace a word-boundary match (continuing after the matched region of the
original string, whose last character becomes the new previous character —
replacements are not rescanned) or copy one character.  The fuel, set to the
length of the string, bounds the number of steps; every step consumes at
least one character because `tok` is nonempty at every call site. -/
def subWBAux (ci : Bool) (tok repl : List Char) : Nat → Option Char → List Char → List Char
  | 0, _, l => l
  | _ + 1, _, [] => []
  | fuel + 1, prev, c :: cs =>
    if wbMatchAt ci tok prev (c :: cs) then
      repl ++ subWBAux ci tok repl fuel ((c :: cs).take tok.length).getLast? ((c :: cs).drop tok.length)
    else
      c :: subWBAux ci tok repl fuel (some c) cs

/-- Runs `re.sub(r'\bTOK\b', repl, s)` for an all-word-characters token. -/
def subWB (ci : Bool) (tok repl : List Char) (l : List Char) : List Char :=
  subWBAux ci tok repl l.length none l

/-- Embeds `name_cleaner.extract_region`: guard on `(Side|Part|Disk)\s*[0-9]+`, then
the first region-bearing parenthesized group, stripped, with the whole-word
abbreviations Eur/Jp/En normalized (IGNORECASE). -/
def extract_region (name : String) : String :=
  let cs := name.toList
  if searchBool (fun s => (matchSPDNumAt s).isSome) cs then ""
  else
    match findRegionGroup cs with
    | some content =>
      let t0 := pyStrip content
      let t1 := subWB true ("eur".toList) ("Europe".toList) t0
      let t2 := subWB true ("jp".toList) ("Japan".toList) t1
      let t3 := subWB true ("en".toList) ("English".toList) t2
      String.mk t3
    | none => ""

/-- The `REGION_PRIORITIES` table of `name_cleaner.get_region_priority`, in
insertion order.  The insertion order is already descending by priority, so
Python's `sorted(keys, key=priority, reverse=True)` enumerates the keys in
exactly this order. -/
def regionPriorityTable : List (String × Nat) :=
  [("Europe", 6), ("PAL", 5), ("World", 4), ("USA", 3), ("Japan", 2), ("NTSC", 1), ("", 0)]

/-- Exact-match lookup (`if region in REGION_PRIORITIES`). -/
def lookupRegionExact : List (String × Nat) → String → Option Nat
  | [], _ => none
  | (k, v) :: rest, r => if r = k then some v else lookupRegionExact rest r

/-- The partial-match loop: first non-empty key that is a (case-sensitive)
substring of the region string, scanned in descending priority order
(`if priority_region and priority_region in region`, with Python's
short-circuit `and` as nested conditionals). -/
def scanSubRegion : List (String × Nat) → String → Nat
  | [], _ => 0
  | (k, v) :: rest, r =>
    if k = "" then scanSubRegion rest r
    else if hasSub k.toList r.toList then v else scanSubRegion rest r

/-- Embeds `name_cleaner.get_region_priority`. -/
def get_region_priority (region : String) : Nat :=
  match lookupRegionExact regionPriorityTable region with
  | some p => p
  | none => scanSubRegion regionPriorityTable region


/-- Fuel-driven global substitution engine for `re.sub(pattern, '', s)` and
friends: at each position, `m` either matches — returning the replacement
text and the suffix after the consumed region — or the scan advances one
character.  Every matcher passed to it consumes at least one character, so a
fuel equal to the length of the string suffices; fuel exhaustion can then
only happen on an empty remainder. -/
def gsubAux (m : List Char → Option (List Char × List Char)) : Nat → List Char → List Char
  | 0, l => l
  | _ + 1, [] => []
  | fuel + 1, c :: cs =>
    match m (c :: cs) with
    | some (repl, rest) => repl ++ gsubAux m fuel rest
    | none => c :: gsubAux m fuel cs

/-- Runs `re.sub` over the whole string (non-overlapping, left to right). -/
def gsub (m : List Char → Option (List Char × List Char)) (l : List Char) : List Char :=
  gsubAux m l.length l

/-- Computes `os.path.splitext(p)[0]` for POSIX paths: split at the last dot, unless
it does not follow the last path separator, or every character between that
separator and the dot is itself a dot (leading dots of the basename never
start an extension). -/
def splitextStem (cs : List Char) : List Char :=
  let ids := cs.enum
  let dotIdx := (ids.filter (fun p => p.2 = '.')).map Prod.fst
  let sepIdx := (ids.filter (fun p => p.2 = '/')).map Prod.fst
  match dotIdx.getLast? with
  | none => cs
  | some d =>
    let f := match sepIdx.getLast? with
      | none => 0
      | some s => s + 1
    if f ≤ d then
      if ((cs.drop f).take (d - f)).any (fun c => c != '.') then cs.take d else cs
    else cs

/-- Computes `os.path.splitext(p)[1]` (the extension including its dot). -/
def splitextExt (cs : List Char) : List Char :=
  cs.drop (splitextStem cs).length

/-- Match of `\s*[\(\[]?(Side|Part|Disk)\s*[0-9]+` at the head of the suffix;
used by the truncating substitution
`re.sub(r'\s*[\(\[]?(Side|Part|Disk)\s*[0-9]+[\)\]]?.*$', '', name)` which
deletes from the leftmost such position to the end of the string
(`[\)\]]?.*$` always matches whatever follows). -/
def truncSPDMatchAt (cs : List Char) : Bool :=
  let r1 := cs.dropWhile pyIsSpace
  let r2 := match r1 with
    | c :: t => if c = '(' || c = '[' then t else r1
    | [] => r1
  match stripAnyKwCI (["side", "part", "disk"].map String.toList) r2 with
  | none => false
  | some r3 => !((r3.dropWhile pyIsSpace).takeWhile Char.isDigit).isEmpty

/-- Delete from the leftmost `truncSPDMatchAt` position to the end. -/
def truncSPD : List Char → List Char
  | [] => []
  | c :: cs => if truncSPDMatchAt (c :: cs) then [] else c :: truncSPD cs

/-- Closing characters of the bracketed-tag patterns (`[\)\]]` / `[\]\)]`). -/
def isCloser (c : Char) : Bool :=
  c = ')' || c = ']'

/-- Drop through the first `)` or `]` of the suffix (the filler `[^\)\]]*`
cannot cross either closer); `none` when there is no closer. -/
def dropThroughCloser : List Char → Option (List Char)
  | [] => none
  | c :: cs => if isCloser c then some cs else dropThroughCloser cs

/-- The alternation `(USA|Europe|World|Japan|Eur?|Jp|En|PAL|NTSC)` of the
region-tag removal, reduced to its mandatory prefixes: `Eur?` must match at
least `Eu`, and any optional `r` — like all other text before the closing
bracket — is absorbed by the filler `[^\)\]]*` that follows the group. -/
def regionTagTokens : List (List Char) :=
  ["usa", "europe", "world", "japan", "eu", "jp", "en", "pal", "ntsc"].map String.toList

/-- Match `\s*[\(\[](USA|Europe|World|Japan|Eur?|Jp|En|PAL|NTSC)[^\)\]]*[\]\)]`
(IGNORECASE) at the head of the suffix, for removal. -/
def matchRegionTagAt (cs : List Char) : Option (List Char × List Char) :=
  let r1 := cs.dropWhile pyIsSpace
  match r1 with
  | b :: r2 =>
    if (b = '(' || b = '[') && regionTagTokens.any (fun t => startsWithCI t r2) then
      match dropThroughCloser r2 with
      | some rest => some ([], rest)
      | none => none
    else none
  | [] => none

/-- Match `\s*[\(\[]v[\d\.]+[\)\]]` (IGNORECASE) at the head of the suffix. -/
def matchParenVerAt (cs : List Char) : Option (List Char × List Char) :=
  let r1 := cs.dropWhile pyIsSpace
  match r1 with
  | b :: v :: r2 =>
    if (b = '(' || b = '[') && v.toLower = 'v' then
      let run := r2.takeWhile (fun c => c.isDigit || c = '.')
      if run.isEmpty then none
      else
        match r2.drop run.length with
        | c :: rest => if isCloser c then some ([], rest) else none
        | [] => none
    else none
  | _ => none

/-- Word-boundary test between a last matched character and the following
character (string end counts as a non-word side). -/
def boundaryBetween (last : Char) (next : Option Char) : Bool :=
  isWordChar last != (match next with
    | some c => isWordChar c
    | none => false)

/-- Backtracking of `v[\d\.]+\b`: the largest cut `k ≥ 1` of the digit/dot
run after the `v` such that a word boundary holds between the `k`-th run
character and what follows it (a later run character, or the text after the
run). -/
def bareVerCut (run rest : List Char) : Nat → Option Nat
  | 0 => none
  | k + 1 =>
    match run.get? k with
    | none => bareVerCut run rest k
    | some last =>
      let next := match run.get? (k + 1) with
        | some c => some c
        | none => rest.head?
      if boundaryBetween last next then some (k + 1) else bareVerCut run rest k

/-- Match `v[\d\.]+\b` (case-sensitive, lowercase `v` only) at the head of
the suffix, for removal. -/
def matchBareVerAt (cs : List Char) : Option (List Char × List Char) :=
  match cs with
  | 'v' :: r1 =>
    let run := r1.takeWhile (fun c => c.isDigit || c = '.')
    let rest := r1.drop run.length
    match bareVerCut run rest run.length with
    | some k => some ([], run.drop k ++ rest)
    | none => none
  | _ => none

/-- Match `\s*[\(\[]Version\s+[a-z0-9\.]+[\)\]]` (IGNORECASE) at the head of
the suffix. -/
def matchVersionWordAt (cs : List Char) : Option (List Char × List Char) :=
  let r1 := cs.dropWhile pyIsSpace
  match r1 with
  | b :: r2 =>
    if (b = '(' || b = '[') && startsWithCI ("version".toList) r2 then
      let r3 := r2.drop 7
      let ws := r3.takeWhile pyIsSpace
      if ws.isEmpty then none
      else
        let r4 := r3.drop ws.length
        let run := r4.takeWhile (fun c => c.isAlpha || c.isDigit || c = '.')
        if run.isEmpty then none
        else
          match r4.drop run.length with
          | c :: rest => if isCloser c then some ([], rest) else none
          | [] => none
    else none
  | [] => none

/-- One alternative of a bracketed-tag alternation: consume it
case-insensitively at the head of the suffix. -/
def stripPhraseCI : List (List Char) → List Char → Option (List Char)
  | [], cs => some cs
  | w :: ws, cs =>
    if startsWithCI w cs then stripPhraseCI ws ((cs.drop w.length).dropWhile pyIsSpace)
    else none

/-- The phrase `Tape\s*Port\s*Dongle` needs interleaved `\s*`; plain keywords are the
one-word case.  Note `stripPhraseCI` drops whitespace after every word; for
a one-word phrase the regex has no trailing `\s*`, so the closer check is
done against the suffix before that drop. -/
def stripAltWord (w : List Char) (cs : List Char) : Option (List Char) :=
  if startsWithCI w cs then some (cs.drop w.length) else none

/-- Consume `Tape\s*Port\s*Dongle` (IGNORECASE). -/
def stripTapePortDongle (cs : List Char) : Option (List Char) :=
  match stripAltWord ("tape".toList) cs with
  | none => none
  | some r1 =>
    match stripAltWord ("port".toList) (r1.dropWhile pyIsSpace) with
    | none => none
    | some r2 => stripAltWord ("dongle".toList) (r2.dropWhile pyIsSpace)

/-- Try the alternatives in alternation order; an alternative succeeds only
if a closer follows immediately (Python backtracks to the next alternative
otherwise). -/
def matchAltsThenCloser : List (List Char → Option (List Char)) → List Char → Option (List Char)
  | [], _ => none
  | a :: as_, cs =>
    match a cs with
    | some r =>
      match r with
      | c :: rest => if isCloser c then some rest else matchAltsThenCloser as_ cs
      | [] => matchAltsThenCloser as_ cs
    | none => matchAltsThenCloser as_ cs

/-- Match `\s*[\(\[](Budget|Alt|Alternative|Unl|Aftermarket|Program|Tape\s*Port\s*Dongle)[\]\)]`
(IGNORECASE) at the head of the suffix. -/
def matchSuffixTagAt (cs : List Char) : Option (List Char × List Char) :=
  let r1 := cs.dropWhile pyIsSpace
  match r1 with
  | b :: r2 =>
    if b = '(' || b = '[' then
      match matchAltsThenCloser
          [stripAltWord ("budget".toList), stripAltWord ("alt".toList),
           stripAltWord ("alternative".toList), stripAltWord ("unl".toList),
           stripAltWord ("aftermarket".toList), stripAltWord ("program".toList),
           stripTapePortDongle] r2 with
      | some rest => some ([], rest)
      | none => none
    else none
  | [] => none

/-- Match `\s*[\(\[](Compilation|Collection)[\]\)]` (IGNORECASE). -/
def matchCollTagAt (cs : List Char) : Option (List Char × List Char) :=
  let r1 := cs.dropWhile pyIsSpace
  match r1 with
  | b :: r2 =>
    if b = '(' || b = '[' then
      match matchAltsThenCloser
          [stripAltWord ("compilation".toList), stripAltWord ("collection".toList)] r2 with
      | some rest => some ([], rest)
      | none => none
    else none
  | [] => none

/-- Drop through the first `)` of the suffix (`[^)]*` cannot cross it). -/
def dropThroughParen : List Char → Option (List Char)
  | [] => none
  | c :: cs => if c = ')' then some cs else dropThroughParen cs

/-- Drop through the first `]` of the suffix (`[^\]]*` cannot cross it). -/
def dropThroughBrack : List Char → Option (List Char)
  | [] => none
  | c :: cs => if c = ']' then some cs else dropThroughBrack cs

/-- Match `\s*\([^)]*\)` at the head of the suffix (remaining parentheses). -/
def matchParenAnyAt (cs : List Char) : Option (List Char × List Char) :=
  let r1 := cs.dropWhile pyIsSpace
  match r1 with
  | '(' :: r2 =>
    match dropThroughParen r2 with
    | some rest => some ([], rest)
    | none => none
  | _ => none

/-- Match `\s*\[[^\]]*\]` at the head of the suffix (remaining brackets). -/
def matchBrackAnyAt (cs : List Char) : Option (List Char × List Char) :=
  let r1 := cs.dropWhile pyIsSpace
  match r1 with
  | '[' :: r2 =>
    match dropThroughBrack r2 with
    | some rest => some ([], rest)
    | none => none
  | _ => none

/-- Match a nonempty whitespace run (`\s+`), replaced by a single space. -/
def matchWsRunAt (cs : List Char) : Option (List Char × List Char) :=
  let ws := cs.takeWhile pyIsSpace
  if ws.isEmpty then none else some ([' '], cs.drop ws.length)

/-- Embeds `name_cleaner.clean_name`: the nine-stage normalization pipeline, in
source order. -/
def clean_name (name : String) : String :=
  let s0 := splitextStem name.toList
  let s1 := truncSPD s0
  let s2 := gsub matchRegionTagAt s1
  let s3 := gsub matchParenVerAt s2
  let s4 := gsub matchBareVerAt s3
  let s5 := gsub matchVersionWordAt s4
  let s6 := gsub matchSuffixTagAt s5
  let s7 := gsub matchCollTagAt s6
  let r1 := subWB false ("II".toList) ("2".toList) s7
  let r2 := subWB false ("III".toList) ("3".toList) r1
  let r3 := subWB false ("IV".toList) ("4".toList) r2
  let r4 := subWB false ("VI".toList) ("6".toList) r3
  let r5 := subWB false ("VII".toList) ("7".toList) r4
  let r6 := subWB false ("VIII".toList) ("8".toList) r5
  let s8 := gsub matchParenAnyAt r6
  let s9 := gsub matchBrackAnyAt s8
  String.mk (gsub matchWsRunAt (pyStrip s9))


/-!  ### `src/core/processor.py` and `src/files/operations.py`  -/

/-- Computes `os.path.basename` for normalized (forward-slash) paths. -/
def basenameOf (p : String) : String :=
  String.mk (p.toList.foldl (fun acc c => if c = '/' then [] else acc ++ [c]) [])

/-- A classified record as produced by `processor.process_file` (the
`game_data` dictionary). -/
structure GameData where
  source_path : String
  original_name : String
  clean_name : String
  format : String
  collection : String
  format_priority : Nat
  region : String
  region_priority : Nat
  is_multi_part : Nat
  part_number : Nat
deriving DecidableEq

/-- Computes `format_ext = os.path.splitext(name)[1][1:].lower()`. -/
def splitextExtLower (name : String) : String :=
  String.mk (((splitextExt name.toList).drop 1).map Char.toLower)

/-- The `SKIP_PATTERNS` list of `src/config.py`. -/
def SKIP_PATTERNS : List String :=
  ["BIOS", "Action Replay", "EPROM-System", "Quickload", "64 Doctor", "64MON",
   "Construction Kit", "Monitor", "Compiler", "Editor", "Utility", "Demo Disk",
   "Program", "System", "Cartridge Plus"]

/-- The keys of `FORMAT_PRIORITIES` in `src/config.py`. -/
def FORMAT_PRIORITIES_KEYS : List String :=
  ["crt", "d64", "g64", "nib", "tap", "t64", "prg"]

/-- Embeds `operations.should_skip_file`. -/
def should_skip_file (path filename : String) : Bool :=
  hasSub ("/Originals/".toList) path.toList
  || hasSub ("\\Originals\\".toList) path.toList
  || SKIP_PATTERNS.any (fun p => hasSub p.toList path.toList || hasSub p.toList filename.toList)
  || !(FORMAT_PRIORITIES_KEYS.contains (splitextExtLower filename))

/-- Embeds `processor.process_file`: classify one file; `none` is the sentinel for
an empty clean title (the record is dropped, no exception is raised). -/
def process_file (file_path collection_name : String) : Option GameData :=
  let original_name := basenameOf file_path
  let format_ext := splitextExtLower original_name
  let clean_title := clean_name original_name
  if clean_title = "" then none
  else
    let region := extract_region original_name
    let is_multi := is_multi_part file_path original_name
    some {
      source_path := file_path
      original_name := original_name
      clean_name := clean_title
      format := format_ext
      collection := collection_name
      format_priority := get_format_priority original_name
      region := region
      region_priority := get_region_priority region
      is_multi_part := if is_multi then 1 else 0
      part_number := if is_multi then get_multi_part_info file_path original_name else 0 }

/-- The per-file loop of `processor.scan_directory`, over the list of
(already slash-normalized) file paths produced by the directory walk:
skipped files and empty-identity records increment the skip counter; the
pure embedding raises no exception, so the error counter stays 0. -/
def scanFiles (paths : List String) (collection_name : String) : List GameData × Nat × Nat :=
  paths.foldl
    (fun acc path =>
      if should_skip_file path (basenameOf path) then (acc.1, acc.2.1 + 1, acc.2.2)
      else
        match process_file path collection_name with
        | some gd => (acc.1 ++ [gd], acc.2.1, acc.2.2)
        | none => (acc.1, acc.2.1 + 1, acc.2.2))
    ([], 0, 0)

/-!  ### `src/db/database.py` — schema and `insert_game`

The relational state created by `DatabaseManager.create_schema`: `games`
rows are `(id, clean_name)` with a unique index on `clean_name`;
`game_versions` rows are `(id, game_id, collection, format,
format_priority)`; `game_parts` rows are `(id, version_id, part_number,
source_path, original_name)`.  `game_versions` has **no** `region` or
`region_priority` column.  Row ids model sqlite's `INTEGER PRIMARY KEY`
auto-assignment. -/

/-- A `game_versions` row (exactly the columns of `create_schema`). -/
structure VersionRow where
  id : Nat
  game_id : Nat
  collection : String
  format : String
  format_priority : Nat
deriving DecidableEq

/-- A `game_parts` row. -/
structure PartRow where
  id : Nat
  version_id : Nat
  part_number : Nat
  source_path : String
  original_name : String
deriving DecidableEq

/-- The database state. -/
structure DBState where
  games : List (Nat × String)
  versions : List VersionRow
  parts : List PartRow
  nextGameId : Nat
  nextVersionId : Nat
  nextPartId : Nat
deriving DecidableEq

/-- A freshly created schema. -/
def emptyDB : DBState := ⟨[], [], [], 1, 1, 1⟩

/-- Lookup `SELECT id FROM games WHERE clean_name = ?` (first match). -/
def findGameId : List (Nat × String) → String → Option Nat
  | [], _ => none
  | g :: gs, n => if g.2 = n then some g.1 else findGameId gs n

/-- Lookup `SELECT id FROM game_versions WHERE game_id = ? AND collection = ? AND format = ?`. -/
def findVersionId : List VersionRow → Nat → String → String → Option Nat
  | [], _, _, _ => none
  | v :: vs, gid, coll, fmt =>
    if v.game_id = gid ∧ v.collection = coll ∧ v.format = fmt then some v.id
    else findVersionId vs gid coll fmt

/-- Embeds `DatabaseManager.insert_game`: `INSERT OR IGNORE` of the game (the
unique index on `clean_name` makes the insert a no-op when the name
exists), reuse-or-insert of the `(game_id, collection, format)` version,
and an unconditional insert of the part.  Returns the new state and
`(game_id, version_id, part_id)`. -/
def insert_game (db : DBState) (gd : GameData) : DBState × Nat × Nat × Nat :=
  let gstep : List (Nat × String) × Nat × Nat :=
    match findGameId db.games gd.clean_name with
    | some gid => (db.games, gid, db.nextGameId)
    | none => (db.games ++ [(db.nextGameId, gd.clean_name)], db.nextGameId, db.nextGameId + 1)
  let gid := gstep.2.1
  let vstep : List VersionRow × Nat × Nat :=
    match findVersionId db.versions gid gd.collection gd.format with
    | some vid => (db.versions, vid, db.nextVersionId)
    | none =>
      (db.versions ++ [⟨db.nextVersionId, gid, gd.collection, gd.format, gd.format_priority⟩],
       db.nextVersionId, db.nextVersionId + 1)
  let vid := vstep.2.1
  let pid := db.nextPartId
  (⟨gstep.1, vstep.1, db.parts ++ [⟨pid, vid, gd.part_number, gd.source_path, gd.original_name⟩],
    gstep.2.2, vstep.2.2, pid + 1⟩, gid, vid, pid)

/-- The catalog-building loop (`importer` / batch insert): fold
`insert_game` over a sequence of classified records. -/
def insertAll (rs : List GameData) (db : DBState) : DBState :=
  rs.foldl (fun d r => (insert_game d r).1) db

/-!  ### `src/db/game_repository.py` — `get_best_versions`  -/

/-- The `game_versions` columns created by `DatabaseManager.create_schema`. -/
def createSchemaVersionColumns : List String :=
  ["id", "game_id", "collection", "format", "format_priority"]

/-- The `game_versions` columns referenced (as `v.…`) by the SQL text of
`GameRepository.get_best_versions`, in order of first appearance: the
SELECT list `v.format, v.format_priority, v.collection, v.region,
v.region_priority, v.id`, the window ordering `ORDER BY v.format_priority
DESC, v.region_priority DESC, v.collection ASC`, and the join condition
`g.id = v.game_id`. -/
def getBestVersionsVersionColumns : List String :=
  ["format", "format_priority", "collection", "region", "region_priority", "id", "game_id"]

/-- Column-name resolution of the query against the created schema: the
first referenced `game_versions` column that the table does not have. -/
def gbvMissingColumn : Option String :=
  getBestVersionsVersionColumns.find? (fun c => !(createSchemaVersionColumns.contains c))

/-- Embeds `GameRepository.get_best_versions` run against a catalog whose schema
was created by `DatabaseManager.create_schema`: sqlite resolves the
referenced column names at prepare time and raises
`OperationalError: no such column` for the first column the schema lacks,
before any row is ranked.  The `ok` branch is unreachable
(`gbvMissingColumn` reduces to `some "region"`): the ranked selection of
the SQL text cannot even be expressed against `VersionRow`, which carries
no `region_priority` to sort by. -/
def get_best_versions (_db : DBState) : Except String (List (String × String × String × Nat × Nat)) :=
  match gbvMissingColumn with
  | some c => Except.error ("no such column: v." ++ c)
  | none => Except.ok []


/-!  ### `src/files/path_sanitizer.py` — the sanitizer imported by
`src/core/merger.py` (`from files import sanitize_directory_name`)  -/

/-- The alternation of `\s*\((USA|Europe|Japan|World)\)` (case-sensitive:
the pattern is compiled without flags). -/
def sanRegionTokens : List (List Char) :=
  ["USA", "Europe", "Japan", "World"].map String.toList

/-- Match `\s*\((USA|Europe|Japan|World)\)` at the head of the suffix,
returning `(group(0), group(1))`. -/
def sanRegionAt (cs : List Char) : Option (List Char × List Char) :=
  match cs.drop (cs.takeWhile pyIsSpace).length with
  | b :: r2 =>
    if b = '(' then
      match sanRegionTokens.find? (fun t => startsWithChars t r2) with
      | some t =>
        (match r2.drop t.length with
         | c :: _ =>
           if c = ')' then some (cs.takeWhile pyIsSpace ++ '(' :: (t ++ [')']), t) else none
         | [] => none)
      | none => none
    else none
  | [] => none

/-- Python `str.replace(needle, '')`: remove every (non-overlapping,
left-to-right) occurrence.  Fuel as in `gsubAux`; the needle is nonempty at
the call site. -/
def replaceAllSeq (needle : List Char) : Nat → List Char → List Char
  | 0, l => l
  | _ + 1, [] => []
  | fuel + 1, c :: cs =>
    if startsWithChars needle (c :: cs) then replaceAllSeq needle fuel ((c :: cs).drop needle.length)
    else c :: replaceAllSeq needle fuel cs

/-- The class `[<>:"|?*\\/\s]` replaced by `_` (note: it includes `\s`). -/
def sanBadChar (c : Char) : Bool :=
  c = '<' || c = '>' || c = ':' || c = '\"' || c = '|' || c = '?' || c = '*'
  || c = '\\' || c = '/' || pyIsSpace c

/-- Match `_{2,}`, replaced by a single underscore. -/
def matchUnderscoreRunAt (cs : List Char) : Option (List Char × List Char) :=
  if (cs.takeWhile (fun c => c = '_')).length ≥ 2 then
    some (['_'], cs.drop (cs.takeWhile (fun c => c = '_')).length)
  else none

/-- The character set of Python `str.strip('. _')`. -/
def sanStripChar (c : Char) : Bool :=
  c = '.' || c = ' ' || c = '_'

/-- Python `str.strip('. _')`. -/
def stripDotUnderscoreSpace (cs : List Char) : List Char :=
  ((cs.dropWhile sanStripChar).reverse.dropWhile sanStripChar).reverse

/-- Embeds `files/path_sanitizer.sanitize_directory_name` (the variant used by the
merge-script generator): extract a region tag, remove parenthesized
content, collapse whitespace, replace problematic characters — including
every whitespace character — by underscores, collapse underscore runs,
trim, re-append the region, and fall back to "unnamed". -/
def sanitize_directory_name (name : String) : String :=
  let cs := name.toList
  let step1 :=
    match searchOpt sanRegionAt cs with
    | some mt => (replaceAllSeq mt.1 cs.length cs, some mt.2)
    | none => (cs, none)
  let cs2 := gsub matchParenAnyAt step1.1
  let cs3 := gsub matchWsRunAt cs2
  let cs4 := cs3.map (fun c => if sanBadChar c then '_' else c)
  let cs5 := gsub matchUnderscoreRunAt cs4
  let cs6 := stripDotUnderscoreSpace cs5
  let cs7 := match step1.2 with
    | some t => cs6 ++ '_' :: t
    | none => cs6
  if cs7.isEmpty || cs7.all (fun c => c = '.') then "unnamed" else String.mk cs7


/-!  ### Claim-side definitions (transcribed from the specification's words,
for comparison with the source embeddings above)  -/

/-- The connector set `(?:and|&|\+|-)` of the part-number extraction
pattern. -/
def stripConnector4 (cs : List Char) : Option (List Char) :=
  if startsWithCI ("and".toList) cs then some (cs.drop 3)
  else
    match cs with
    | c :: rest => if c = '&' || c = '+' || c = '-' then some rest else none
    | [] => none

/-- Modelled from the spec: a "Levels N and M" match as claim C7 words it —
`Level(s)` followed by a first number N, a connector, **and** a mandatory
second number — returning N. -/
def matchLevelsPairNumAt (cs : List Char) : Option Nat :=
  match matchLevelsCoreAt cs with
  | none => none
  | some nr =>
    match stripConnector4 (nr.2.dropWhile pyIsSpace) with
    | some r4 =>
      if ((r4.dropWhile pyIsSpace).takeWhile Char.isDigit).isEmpty then none else some nr.1
    | none => none

/-- Modelled from the spec: the part-number precedence exactly as claim C7
states it — (a) the captured number of the first Side/Part/Disk-plus-number
match, (b) otherwise Side A/B as 1/2, (c) otherwise `(N+1) div 2` for a
"Levels N and M" match (connector and second number required), (d)
otherwise 0 — all under the deny-list guard. -/
def spec_part_number (path name : String) : Nat :=
  let full := (path ++ name).toList
  if denyHit full then 0
  else
    match searchOpt matchSPDNumAt full with
    | some n => n
    | none =>
      match searchOpt matchSideABAt full with
      | some k => k
      | none =>
        match searchOpt matchLevelsPairNumAt full with
        | some n => (n + 1) / 2
        | none => 0

/-- The amended claim C7: as `spec_part_number`, except that in tier (c)
the connector-and-second-number tail is optional — a bare `Level(s) N`
match alone already yields `(N+1) div 2`. -/
def amended_part_number (path name : String) : Nat :=
  let full := (path ++ name).toList
  if denyHit full then 0
  else
    match searchOpt matchSPDNumAt full with
    | some n => n
    | none =>
      match searchOpt matchSideABAt full with
      | some k => k
      | none =>
        match searchOpt
            (fun cs =>
              match matchLevelsPairNumAt cs with
              | some n => some n
              | none => matchLevelsNumAt cs) full with
        | some n => (n + 1) / 2
        | none => 0

/-- The scan table of claim C9, highest priority first (the empty key is
not scanned). -/
def claimRegionScanTable : List (String × Nat) :=
  [("Europe", 6), ("PAL", 5), ("World", 4), ("USA", 3), ("Japan", 2), ("NTSC", 1)]

/-- Modelled from the spec: claim C9's description of the region priority —
the table value on an exact match, otherwise the priority of the first
table token (highest first) occurring as a substring of the region string,
otherwise 0. -/
def claim_region_priority (r : String) : Nat :=
  if r = "Europe" then 6
  else if r = "PAL" then 5
  else if r = "World" then 4
  else if r = "USA" then 3
  else if r = "Japan" then 2
  else if r = "NTSC" then 1
  else if r = "" then 0
  else
    match claimRegionScanTable.find? (fun kv => hasSub kv.1.toList r.toList) with
    | some kv => kv.2
    | none => 0

/-- The grouping key of a `game_versions` row. -/
def versionKey (v : VersionRow) : Nat × String × String :=
  (v.game_id, v.collection, v.format)

/-!  ### Supporting lemmas  -/

/-- The claim-side "optional tail" levels matcher agrees with the source's
group-1 extraction: the connector-and-second-number tail, when present,
changes nothing, and when absent the bare match already yields group 1. -/
theorem levelsPairOrBare_eq :
    (fun cs =>
      match matchLevelsPairNumAt cs with
      | some n => some n
      | none => matchLevelsNumAt cs) = matchLevelsNumAt := by
  funext cs
  unfold matchLevelsPairNumAt matchLevelsNumAt
  cases h : matchLevelsCoreAt cs with
  | none => simp
  | some nr =>
    cases hc : stripConnector4 (nr.2.dropWhile pyIsSpace) with
    | none => simp [hc]
    | some r4 =>
      simp only [hc]
      by_cases hd : ((r4.dropWhile pyIsSpace).takeWhile Char.isDigit).isEmpty = true
      · simp [hd]
      · simp [hd]

/-- A failed `games` lookup means the clean name is not in the table. -/
theorem findGameId_none_not_mem :
    ∀ (gs : List (Nat × String)) (n : String),
      findGameId gs n = none → n ∉ gs.map Prod.snd := by
  intro gs n
  induction gs with
  | nil => intro _ h; simp at h
  | cons g gs ih =>
    intro h
    rw [findGameId] at h
    by_cases hg : g.2 = n
    · simp [hg] at h
    · simp only [if_neg hg] at h
      simp only [List.map_cons, List.mem_cons]
      push_neg
      exact ⟨fun e => hg e.symm, ih h⟩

/-- A failed `game_versions` lookup means the grouping key is not in the
table. -/
theorem findVersionId_none_not_mem :
    ∀ (vs : List VersionRow) (gid : Nat) (coll fmt : String),
      findVersionId vs gid coll fmt = none → (gid, coll, fmt) ∉ vs.map versionKey := by
  intro vs gid coll fmt
  induction vs with
  | nil => intro _ h; simp at h
  | cons v vs ih =>
    intro h
    rw [findVersionId] at h
    by_cases hv : v.game_id = gid ∧ v.collection = coll ∧ v.format = fmt
    · simp [hv] at h
    · simp only [if_neg hv] at h
      simp only [List.map_cons, List.mem_cons]
      push_neg
      refine ⟨?_, ih h⟩
      intro e
      apply hv
      simp only [versionKey, Prod.mk.injEq] at e
      exact ⟨e.1.symm, e.2.1.symm, e.2.2.symm⟩

/-- One `insert_game` preserves uniqueness of game names and of version
grouping keys. -/
theorem insert_game_nodup (db : DBState) (gd : GameData)
    (hg : (db.games.map Prod.snd).Nodup) (hv : (db.versions.map versionKey).Nodup) :
    ((insert_game db gd).1.games.map Prod.snd).Nodup ∧
    ((insert_game db gd).1.versions.map versionKey).Nodup := by
  cases hfg : findGameId db.games gd.clean_name with
  | some gid =>
    cases hfv : findVersionId db.versions gid gd.collection gd.format with
    | some vid =>
      constructor <;> simp [insert_game, hfg, hfv, hg, hv]
    | none =>
      have hnm := findVersionId_none_not_mem db.versions gid gd.collection gd.format hfv
      constructor <;>
        simp [insert_game, hfg, hfv, hg, hv, List.nodup_append, versionKey, hnm]
  | none =>
    have hgm := findGameId_none_not_mem db.games gd.clean_name hfg
    cases hfv : findVersionId db.versions db.nextGameId gd.collection gd.format with
    | some vid =>
      constructor <;>
        simp [insert_game, hfg, hfv, hg, hv, List.nodup_append, hgm]
    | none =>
      have hnm := findVersionId_none_not_mem db.versions db.nextGameId gd.collection gd.format hfv
      constructor <;>
        simp [insert_game, hfg, hfv, hg, hv, List.nodup_append, versionKey, hgm, hnm]

/-- The catalog fold preserves the two uniqueness invariants. -/
theorem insertAll_nodup :
    ∀ (rs : List GameData) (db : DBState),
      (db.games.map Prod.snd).Nodup → (db.versions.map versionKey).Nodup →
      ((insertAll rs db).games.map Prod.snd).Nodup ∧
      ((insertAll rs db).versions.map versionKey).Nodup := by
  intro rs
  induction rs with
  | nil => intro db hg hv; exact ⟨hg, hv⟩
  | cons r rs ih =>
    intro db hg hv
    have step := insert_game_nodup db r hg hv
    exact ih (insert_game db r).1 step.1 step.2

/-- Every single `insert_game` appends exactly one part row. -/
theorem insert_game_parts_length (db : DBState) (gd : GameData) :
    (insert_game db gd).1.parts.length = db.parts.length + 1 := by
  simp [insert_game]

/-- The catalog fold appends one part per record. -/
theorem insertAll_parts_length :
    ∀ (rs : List GameData) (db : DBState),
      (insertAll rs db).parts.length = db.parts.length + rs.length := by
  intro rs
  induction rs with
  | nil => intro db; rfl
  | cons r rs ih =>
    intro db
    have h1 := insert_game_parts_length db r
    have h2 := ih (insert_game db r).1
    simp only [insertAll, List.foldl_cons, List.length_cons] at h1 h2 ⊢
    omega

/-- Scanning a priority table whose keys are all nonempty agrees with
taking the value of the first key that is a substring. -/
theorem scanSubRegion_eq_find (tbl : List (String × Nat)) (r : String)
    (hk : ∀ kv ∈ tbl, kv.1 ≠ "") :
    scanSubRegion tbl r =
      (match tbl.find? (fun kv => hasSub kv.1.toList r.toList) with
       | some kv => kv.2
       | none => 0) := by
  induction tbl with
  | nil => rfl
  | cons kv rest ih =>
    obtain ⟨k, v⟩ := kv
    have hkv : k ≠ "" := hk (k, v) (by simp)
    by_cases hs : hasSub k.toList r.toList = true
    · rw [List.find?_cons]
      simp only [hs]
      simp only [scanSubRegion]
      rw [if_neg hkv, if_pos hs]
    · have hsb : hasSub k.toList r.toList = false := by simpa using hs
      rw [List.find?_cons]
      simp only [hsb]
      simp only [scanSubRegion]
      rw [if_neg hkv, if_neg hs]
      exact ih (fun x hx => hk x (List.mem_cons_of_mem _ hx))

/-- The empty-key table entry is never scanned: dropping the trailing
`("", 0)` entry of the source table changes nothing. -/
theorem scanSubRegion_append_empty (tbl : List (String × Nat)) (r : String) :
    scanSubRegion (tbl ++ [("", 0)]) r = scanSubRegion tbl r := by
  induction tbl with
  | nil => rfl
  | cons kv rest ih =>
    obtain ⟨k, v⟩ := kv
    simp only [List.cons_append, scanSubRegion, List.append_eq, ih]

/-- The source's partial-match loop computes exactly claim C9's
highest-to-lowest substring scan. -/
theorem scanSubRegion_matches_claim (r : String) :
    scanSubRegion regionPriorityTable r =
      (match claimRegionScanTable.find? (fun kv => hasSub kv.1.toList r.toList) with
       | some kv => kv.2
       | none => 0) := by
  have hsplit : regionPriorityTable = claimRegionScanTable ++ [("", 0)] := rfl
  rw [hsplit, scanSubRegion_append_empty]
  exact scanSubRegion_eq_find claimRegionScanTable r (by decide)

/-- Dropping a while-run keeps membership. -/
theorem mem_of_mem_dropWhile (f : Char → Bool) :
    ∀ (l : List Char) (x : Char), x ∈ l.dropWhile f → x ∈ l := by
  intro l
  induction l with
  | nil => intro x hx; simp at hx
  | cons a as ih =>
    intro x hx
    rw [List.dropWhile_cons] at hx
    by_cases ha : f a = true
    · rw [if_pos ha] at hx
      exact List.mem_cons_of_mem _ (ih x hx)
    · rw [if_neg ha] at hx
      exact hx

/-- Two-sided stripping keeps membership. -/
theorem mem_of_mem_stripDotUnderscoreSpace {x : Char} {l : List Char}
    (h : x ∈ stripDotUnderscoreSpace l) : x ∈ l := by
  unfold stripDotUnderscoreSpace at h
  rw [List.mem_reverse] at h
  have h2 := mem_of_mem_dropWhile sanStripChar _ _ h
  rw [List.mem_reverse] at h2
  exact mem_of_mem_dropWhile sanStripChar _ _ h2

/-- Characters of a `gsubAux` result satisfy a predicate whenever the input's
characters do, every replacement's characters do, and the matcher only ever
continues on characters of its input. -/
theorem gsubAux_mem_pred {p : Char → Prop} (m : List Char → Option (List Char × List Char))
    (hm : ∀ l r, m l = some r → (∀ x ∈ r.1, p x) ∧ ∀ x ∈ r.2, x ∈ l) :
    ∀ (fuel : Nat) (l : List Char), (∀ x ∈ l, p x) → ∀ x ∈ gsubAux m fuel l, p x := by
  intro fuel
  induction fuel with
  | zero => intro l hl x hx; exact hl x hx
  | succ fuel ih =>
    intro l hl x hx
    cases l with
    | nil => simp [gsubAux] at hx
    | cons a as =>
      rw [gsubAux] at hx
      cases hma : m (a :: as) with
      | some r =>
        obtain ⟨repl, rest⟩ := r
        rw [hma] at hx
        rcases List.mem_append.mp hx with h1 | h2
        · exact (hm _ _ hma).1 x h1
        · exact ih rest (fun y hy => hl y ((hm _ _ hma).2 y hy)) x h2
      | none =>
        rw [hma] at hx
        rcases List.mem_cons.mp hx with rfl | h2
        · exact hl x (List.mem_cons_self _ _)
        · exact ih as (fun y hy => hl y (List.mem_cons_of_mem _ hy)) x h2

/-- Specialization of `gsubAux_mem_pred` to `gsub`. -/
theorem gsub_mem_pred {p : Char → Prop} (m : List Char → Option (List Char × List Char))
    (hm : ∀ l r, m l = some r → (∀ x ∈ r.1, p x) ∧ ∀ x ∈ r.2, x ∈ l)
    (l : List Char) (hl : ∀ x ∈ l, p x) : ∀ x ∈ gsub m l, p x :=
  gsubAux_mem_pred m hm l.length l hl

/-- The underscore-run collapse only emits underscores and characters of its
input. -/
theorem matchUnderscoreRunAt_chars :
    ∀ (l : List Char) (r : List Char × List Char),
      matchUnderscoreRunAt l = some r →
      (∀ x ∈ r.1, sanBadChar x = false) ∧ ∀ x ∈ r.2, x ∈ l := by
  intro l r h
  unfold matchUnderscoreRunAt at h
  split at h
  · rw [Option.some.injEq] at h
    subst h
    constructor
    · intro x hx
      simp only [List.mem_singleton] at hx
      subst hx
      decide
    · intro x hx
      exact List.drop_subset _ l hx
  · exact absurd h (by simp)

/-- After the underscore-replacement map, every character is clean. -/
theorem sanMap_no_bad (l : List Char) :
    ∀ x ∈ l.map (fun c => if sanBadChar c then '_' else c), sanBadChar x = false := by
  intro x hx
  rcases List.mem_map.mp hx with ⟨a, _, rfl⟩
  by_cases hb : sanBadChar a = true
  · rw [if_pos hb]; decide
  · rw [if_neg hb]
    simpa using hb

/-- Characters of the sanitizer's core pipeline (after the replacement map)
are never illegal and never whitespace. -/
theorem san_core_no_bad (l0 : List Char) :
    ∀ x ∈ stripDotUnderscoreSpace (gsub matchUnderscoreRunAt
        ((gsub matchWsRunAt (gsub matchParenAnyAt l0)).map
          (fun c => if sanBadChar c then '_' else c))), sanBadChar x = false := by
  intro x hx
  have h1 := mem_of_mem_stripDotUnderscoreSpace hx
  exact gsub_mem_pred matchUnderscoreRunAt matchUnderscoreRunAt_chars _
    (sanMap_no_bad (gsub matchWsRunAt (gsub matchParenAnyAt l0))) x h1

/-- A successful leftmost search comes from a successful match at some
suffix. -/
theorem searchOpt_eq_some {α : Type} (m : List Char → Option α) :
    ∀ (cs : List Char) (v : α), searchOpt m cs = some v → ∃ l, m l = some v := by
  intro cs
  induction cs with
  | nil => intro v h; exact ⟨[], h⟩
  | cons c cs ih =>
    intro v h
    rw [searchOpt] at h
    cases hm : m (c :: cs) with
    | some w =>
      rw [hm] at h
      exact ⟨c :: cs, by rw [hm]; exact h⟩
    | none =>
      rw [hm] at h
      exact ih v h

/-- The region tag returned by `sanRegionAt` is one of the four tokens of
its alternation. -/
theorem sanRegionAt_token_mem :
    ∀ (l : List Char) (r : List Char × List Char),
      sanRegionAt l = some r → r.2 ∈ sanRegionTokens := by
  intro l r h
  unfold sanRegionAt at h
  split at h
  · split at h
    · split at h
      · rename_i t hfind
        split at h
        · split at h
          · rw [Option.some.injEq] at h
            subst h
            exact List.mem_of_find?_eq_some hfind
          · exact absurd h (by simp)
        · exact absurd h (by simp)
      · exact absurd h (by simp)
    · exact absurd h (by simp)
  · exact absurd h (by simp)

/-- The sanitizer never returns the empty string: a nonempty core survives,
and an empty or all-dots result becomes "unnamed". -/
theorem sanitize_ne_empty (name : String) : sanitize_directory_name name ≠ "" := by
  have gen : ∀ l : List Char,
      (if l.isEmpty || l.all (fun c => c = '.') then "unnamed" else String.mk l) ≠ "" := by
    intro l
    split
    · decide
    · next h =>
      intro he
      apply h
      have hl : l = [] := congrArg String.data he
      rw [hl]
      decide
  simp only [sanitize_directory_name]
  exact gen _

/-- No character of a sanitized name is in the replaced class: illegal
characters and every kind of whitespace are gone (interior spaces are not
preserved), and the re-appended region token is clean as well. -/
theorem sanitize_no_bad_char (name : String) :
    ∀ x ∈ (sanitize_directory_name name).data, sanBadChar x = false := by
  have hfinal : ∀ l : List Char, (∀ x ∈ l, sanBadChar x = false) →
      ∀ x ∈ ((if l.isEmpty || l.all (fun c => c = '.') then "unnamed" else String.mk l) :
        String).data, sanBadChar x = false := by
    intro l hl x hx
    split at hx
    · exact (by decide : ∀ y ∈ ("unnamed" : String).data, sanBadChar y = false) x hx
    · exact hl x hx
  simp only [sanitize_directory_name]
  cases hreg : searchOpt sanRegionAt name.toList with
  | none =>
    simp only [hreg]
    exact hfinal _ (fun x hx => san_core_no_bad _ x hx)
  | some mt =>
    simp only [hreg]
    refine hfinal _ (fun x hx => ?_)
    rcases List.mem_append.mp hx with h1 | h2
    · exact san_core_no_bad _ x h1
    · rcases List.mem_cons.mp h2 with rfl | h3
      · decide
      · obtain ⟨l0, hl0⟩ := searchOpt_eq_some sanRegionAt name.toList mt hreg
        have htok := sanRegionAt_token_mem l0 mt hl0
        exact (by decide : ∀ t ∈ sanRegionTokens, ∀ y ∈ t, sanBadChar y = false) mt.2 htok x h3

/-!  ### Claim theorems  -/

/-- Claim C1.  The claim asserts that `get_best_versions` returns, per game,
exactly the parts of the version maximal under (format_priority desc,
region_priority desc, collection asc).  On the code as wired this is
impossible: the query's SQL references the `game_versions` columns
`v.region` and `v.region_priority`, which `DatabaseManager.create_schema`
never creates, so against every catalog built by the catalog builder —
including the empty one — sqlite fails column resolution at prepare time
(`OperationalError: no such column`) instead of returning ranked parts. -/
theorem c1_get_best_versions_schema_mismatch :
    (∀ db : DBState, get_best_versions db = Except.error "no such column: v.region") ∧
    "region_priority" ∈ getBestVersionsVersionColumns ∧
    "region" ∈ getBestVersionsVersionColumns ∧
    "region_priority" ∉ createSchemaVersionColumns ∧
    "region" ∉ createSchemaVersionColumns := by
  refine ⟨fun _db => rfl, by decide, by decide, by decide, by decide⟩

/-- Claim C2 (counterexample).  The sanitizer used by the export planner
(`src/files/path_sanitizer.py`, imported by `core/merger.py` via the
`files` package) does not preserve internal spaces: its character class
`[<>:"|?*\\/\s]` includes `\s`, so the interior space of "Simple Name"
becomes an underscore. -/
theorem c2_interior_space_counterexample :
    sanitize_directory_name "Simple Name" = "Simple_Name" ∧
    ("Simple_Name" : String) ≠ "Simple Name" := by decide

/-- Claim C2 (amended).  For every input string the sanitizer returns a
non-empty name whose characters include no filesystem-illegal character and
no whitespace of any kind — in particular interior spaces become
underscores rather than being preserved.  A parenthesized
USA/Europe/Japan/World tag is extracted first and re-appended as an
underscore-joined suffix only after the core name has been trimmed of
leading/trailing dots, underscores and spaces, so the re-append can leave a
leading underscore ("(USA)" becomes "_USA"); repeated underscore runs of
the core are collapsed and an otherwise empty result becomes "unnamed". -/
theorem c2_sanitize_directory_name_amended :
    (∀ name : String, sanitize_directory_name name ≠ "") ∧
    (∀ (name : String) (c : Char),
        c ∈ (sanitize_directory_name name).data → sanBadChar c = false) ∧
    sanitize_directory_name "My<>Game" = "My_Game" ∧
    sanitize_directory_name "Bad:Chars?*|" = "Bad_Chars" ∧
    sanitize_directory_name "...My Game..." = "My_Game" ∧
    sanitize_directory_name "  Spaces  " = "Spaces" ∧
    sanitize_directory_name "___Game___" = "Game" ∧
    sanitize_directory_name "" = "unnamed" ∧
    sanitize_directory_name "..." = "unnamed" ∧
    sanitize_directory_name " . . " = "unnamed" ∧
    sanitize_directory_name "Simple Name" = "Simple_Name" ∧
    sanitize_directory_name "Multiple   Spaces" = "Multiple_Spaces" ∧
    sanitize_directory_name "Game (USA)" = "Game_USA" ∧
    sanitize_directory_name "(USA)" = "_USA" :=
  ⟨sanitize_ne_empty, fun name => sanitize_no_bad_char name, by decide⟩

/-- Witness for the amended claim C2 at a concrete input taking the
region-re-append path: the result is non-empty and its leading underscore
is outside the replaced character class. -/
theorem c2_sanitize_directory_name_amended_witness :
    sanitize_directory_name "(USA)" ≠ "" ∧ sanBadChar '_' = false :=
  ⟨c2_sanitize_directory_name_amended.1 "(USA)",
   c2_sanitize_directory_name_amended.2.1 "(USA)" '_' (by decide)⟩

/-- Claim C3 (counterexample).  The guard of `extract_region` covers only
`(Side|Part|Disk)` followed by a number, not every multi-part pattern:
"Game (Side A Europe).d64" matches the `Side [A-B]` multi-part pattern
(`is_multi_part` is true for it), yet `extract_region` returns a non-empty
region instead of the empty string the claim requires. -/
theorem c3_side_ab_guard_counterexample :
    is_multi_part "" "Game (Side A Europe).d64" = true ∧
    extract_region "Game (Side A Europe).d64" = "Side A Europe" ∧
    extract_region "Game (Side A Europe).d64" ≠ "" := by decide

/-- Claim C3 (amended).  `extract_region` returns the empty string for
every filename matching the Side/Part/Disk-followed-by-a-number pattern
(the only multi-part pattern its guard tests); for other names it returns
the contents of the first parenthesized group containing a region token,
with Eur/Jp/En normalized — as on the two example filenames. -/
theorem c3_extract_region_amended :
    (∀ name : String,
        searchBool (fun s => (matchSPDNumAt s).isSome) name.toList = true →
        extract_region name = "") ∧
    extract_region "MultiGame (Disk 1 PAL NTSC).d64" = "" ∧
    extract_region "Game (Europe).d64" = "Europe" := by
  refine ⟨fun name h => ?_, by decide, by decide⟩
  have h' : searchBool (fun s => (matchSPDNumAt s).isSome) name.data = true := h
  simp [extract_region, h']

/-- Witness for the amended claim C3 at a concrete guarded filename. -/
theorem c3_extract_region_amended_witness :
    extract_region "Game (Disk 2).d64" = "" :=
  c3_extract_region_amended.1 "Game (Disk 2).d64" (by decide)

/-- Claim C4.  Catalog building is idempotent on Games and Versions and
pass-through on Parts: after any sequence of `insert_game` calls on a fresh
schema there is at most one game row per clean name and at most one
version row per (game, collection, format) key, each insert appends
exactly one part row, and re-inserting the very same record (same key,
same part number) reuses the game and the version while keeping both
parts. -/
theorem c4_insert_game_idempotent_grouping :
    (∀ rs : List GameData,
        ((insertAll rs emptyDB).games.map Prod.snd).Nodup ∧
        ((insertAll rs emptyDB).versions.map versionKey).Nodup ∧
        (insertAll rs emptyDB).parts.length = rs.length) ∧
    (∀ gd : GameData,
        (insert_game (insert_game emptyDB gd).1 gd).1.games.length = 1 ∧
        (insert_game (insert_game emptyDB gd).1 gd).1.versions.length = 1 ∧
        (insert_game (insert_game emptyDB gd).1 gd).1.parts.length = 2) := by
  constructor
  · intro rs
    have hinv := insertAll_nodup rs emptyDB (by simp [emptyDB]) (by simp [emptyDB])
    refine ⟨hinv.1, hinv.2, ?_⟩
    have hlen := insertAll_parts_length rs emptyDB
    simpa [emptyDB] using hlen
  · intro gd
    simp [insert_game, findGameId, findVersionId, emptyDB]

/-- Claim C5.  A file whose normalization yields an empty clean name — such
as "(Europe).crt" — produces the sentinel `none` (no exception), is counted
as skipped by the scan loop, and contributes no game, version or part row
to the catalog. -/
theorem c5_empty_identity_drop :
    clean_name "(Europe).crt" = "" ∧
    process_file "roms/TOSEC/(Europe).crt" "TOSEC" = none ∧
    scanFiles ["roms/TOSEC/(Europe).crt"] "TOSEC" = ([], 1, 0) ∧
    insertAll (scanFiles ["roms/TOSEC/(Europe).crt"] "TOSEC").1 emptyDB = emptyDB := by
  decide

/-- Claim C6.  Whenever `path + name` contains a deny-listed phrase,
`is_multi_part` is false and `get_multi_part_info` is 0, regardless of any
multi-part pattern also present; in particular for the Tape Port Dongle
example. -/
theorem c6_deny_list_suppresses :
    (∀ path name : String,
        denyHit ((path ++ name).toList) = true →
        is_multi_part path name = false ∧ get_multi_part_info path name = 0) ∧
    is_multi_part "" "10th Frame (USA) (Tape Port Dongle).nib" = false ∧
    get_multi_part_info "" "10th Frame (USA) (Tape Port Dongle).nib" = 0 := by
  refine ⟨fun path name h => ?_, by decide, by decide⟩
  have h' : denyHit (path.data ++ name.data) = true := h
  constructor
  · simp [is_multi_part, h']
  · simp [get_multi_part_info, h']

/-- Witness for claim C6 at a concrete deny-listed input that also matches
a multi-part pattern. -/
theorem c6_deny_list_suppresses_witness :
    is_multi_part "" "A (Savedisk) Disk 1.d64" = false ∧
    get_multi_part_info "" "A (Savedisk) Disk 1.d64" = 0 :=
  c6_deny_list_suppresses.1 "" "A (Savedisk) Disk 1.d64" (by decide)

/-- Claim C7 (counterexample).  The claim's tier (c) requires a "Levels N
and M" match, making `get_multi_part_info "" "Level 3.d64"` fall to tier
(d) and return 0; the code's pattern makes the "and M" tail optional and
returns `(3+1) div 2 = 2` for the bare "Level 3". -/
theorem c7_bare_level_counterexample :
    get_multi_part_info "" "Level 3.d64" = 2 ∧
    spec_part_number "" "Level 3.d64" = 0 ∧
    denyHit (("" ++ "Level 3.d64").toList) = false := by decide

/-- Claim C7 (amended).  For every input not suppressed by the deny-list,
`get_multi_part_info` returns the first applicable of: (a) the captured
number of the first Side/Part/Disk-plus-number match; (b) Side A/B as 1/2;
(c) `(N+1) div 2` for a Level(s)-plus-first-number-N match whose
connector-and-second-number tail is optional; (d) 0. -/
theorem c7_part_number_precedence_amended :
    (∀ path name : String, get_multi_part_info path name = amended_part_number path name) ∧
    get_multi_part_info "" "Dizzy (Disk 2).d64" = 2 ∧
    get_multi_part_info "" "Game (Side B).d64" = 2 ∧
    get_multi_part_info "" "Side A Levels 5 and 6.d64" = 1 ∧
    get_multi_part_info "" "Game Levels 5 and 6.d64" = 3 ∧
    get_multi_part_info "" "Plain Game.d64" = 0 := by
  refine ⟨fun path name => ?_, by decide, by decide, by decide, by decide, by decide⟩
  unfold get_multi_part_info amended_part_number
  rw [levelsPairOrBare_eq]

/-- Claim C8.  The normalizer converts exactly the whole-word Roman
numerals II, III, IV, VI, VII, VIII to 2, 3, 4, 6, 7, 8, and only at word
boundaries, so Roman-numeral letter sequences embedded in ordinary words
survive untouched. -/
theorem c8_roman_numerals_word_boundary :
    clean_name "Game II.crt" = "Game 2" ∧
    clean_name "Game III.crt" = "Game 3" ∧
    clean_name "Game IV.d64" = "Game 4" ∧
    clean_name "Game VI.d64" = "Game 6" ∧
    clean_name "Game VII.tap" = "Game 7" ∧
    clean_name "Game VIII.d64" = "Game 8" ∧
    clean_name "Winter Games.crt" = "Winter Games" ∧
    clean_name "California Games.d64" = "California Games" ∧
    clean_name "Game IIx.crt" = "Game IIx" := by decide

/-- Claim C9.  `get_region_priority` agrees everywhere with the claimed
algorithm: table value on exact match (Europe 6, PAL 5, World 4, USA 3,
Japan 2, NTSC 1, empty 0), otherwise the priority of the first table token
— scanned highest to lowest — occurring as a substring, otherwise 0. -/
theorem c9_region_priority_spec :
    (∀ r : String, get_region_priority r = claim_region_priority r) ∧
    get_region_priority "USA, Europe" = 6 ∧
    get_region_priority "Europe, Japan" = 6 ∧
    get_region_priority "Nonsense" = 0 := by
  refine ⟨fun r => ?_, by decide, by decide, by decide⟩
  by_cases h1 : r = "Europe"
  · simp [get_region_priority, claim_region_priority, regionPriorityTable, lookupRegionExact, h1]
  by_cases h2 : r = "PAL"
  · simp [get_region_priority, claim_region_priority, regionPriorityTable, lookupRegionExact,
      h1, h2]
  by_cases h3 : r = "World"
  · simp [get_region_priority, claim_region_priority, regionPriorityTable, lookupRegionExact,
      h1, h2, h3]
  by_cases h4 : r = "USA"
  · simp [get_region_priority, claim_region_priority, regionPriorityTable, lookupRegionExact,
      h1, h2, h3, h4]
  by_cases h5 : r = "Japan"
  · simp [get_region_priority, claim_region_priority, regionPriorityTable, lookupRegionExact,
      h1, h2, h3, h4, h5]
  by_cases h6 : r = "NTSC"
  · simp [get_region_priority, claim_region_priority, regionPriorityTable, lookupRegionExact,
      h1, h2, h3, h4, h5, h6]
  by_cases h7 : r = ""
  · simp [get_region_priority, claim_region_priority, regionPriorityTable, lookupRegionExact,
      h1, h2, h3, h4, h5, h6, h7]
  have hl : lookupRegionExact regionPriorityTable r = none := by
    simp [regionPriorityTable, lookupRegionExact, h1, h2, h3, h4, h5, h6, h7]
  simp only [get_region_priority, claim_region_priority, hl, if_neg h1, if_neg h2, if_neg h3,
    if_neg h4, if_neg h5, if_neg h6, if_neg h7]
  exact scanSubRegion_matches_claim r

/-- Claim C10.  The persistence layer never reads the classifier's region
fields: two records that differ only in `region` and `region_priority`
produce byte-identical database states (and identical returned row ids),
so no region information can be recovered from the stored catalog. -/
theorem c10_region_noninterference :
    ∀ (db : DBState) (gd : GameData) (reg : String) (rp : Nat),
      insert_game db { gd with region := reg, region_priority := rp } = insert_game db gd := by
  intro db gd reg rp
  rfl
